import Mathlib

/-!
Verification of the json-to-dto conversion engine (src/converters.ts,
src/decorators.ts, src/metadata-store.ts) against its specification.

JavaScript values are shallowly embedded as `JSValue`; numbers are modelled
as rationals (IEEE-754 rounding, NaN and infinities stored inside a number
are abstracted away: NaN arising from parsing is `Option.none`).
-/

/-- A JavaScript value as the conversion engine sees it: the JSON universe
plus `undefined` and `Date` objects (a `Date` is kept as its timestamp). -/
inductive JSValue where
  | undefined
  | null
  | bool (b : Bool)
  | num (q : ℚ)
  | str (s : String)
  | arr (elems : List JSValue)
  | obj (fields : List (String × JSValue))
  | date (t : ℚ)
  deriving Repr

/-- `typeof` on a `JSValue` (note `typeof null === "object"` in JavaScript). -/
def jsTypeof : JSValue → String
  | .undefined => "undefined"
  | .null => "object"
  | .bool _ => "boolean"
  | .num _ => "number"
  | .str _ => "string"
  | .arr _ => "object"
  | .obj _ => "object"
  | .date _ => "object"

/-- Loose equality with `undefined` (`val == undefined` in JavaScript),
true exactly for `undefined` and `null`. -/
def JSValue.isNullish : JSValue → Bool
  | .undefined => true
  | .null => true
  | _ => false

/-- Strict equality with `undefined` (`val === undefined`). -/
def JSValue.isUndefined : JSValue → Bool
  | .undefined => true
  | _ => false

/-! ### Insertion-ordered maps

JavaScript `Map` objects (and plain objects used as records) iterate in
insertion order, and `Map.set` on an existing key updates the value in
place, keeping the key's position. They are embedded as association lists
with unique keys maintained by `mapSet`. -/

/-- `Map.get` / property read: first binding of the key, if any. -/
def mapGet {α : Type} : List (String × α) → String → Option α
  | [], _ => none
  | (k', v') :: rest, k => if k' = k then some v' else mapGet rest k

/-- `Map.has`. -/
def mapHas {α : Type} (m : List (String × α)) (k : String) : Bool :=
  (mapGet m k).isSome

/-- `Map.set` / property write: update in place if the key exists
(keeping its position), otherwise append at the end. -/
def mapSet {α : Type} : List (String × α) → String → α → List (String × α)
  | [], k, v => [(k, v)]
  | (k', v') :: rest, k, v =>
    if k' = k then (k', v) :: rest else (k', v') :: mapSet rest k v

/-- `Map.delete`: remove the binding of the key (unique-keyed maps). -/
def mapDelete {α : Type} : List (String × α) → String → List (String × α)
  | [], _ => []
  | (k', v') :: rest, k => if k' = k then rest else (k', v') :: mapDelete rest k

/-! ### Host-language primitive models

`parseFloat`, string coercion (`ToString`), and the `Date` constructor are
primitives of the JavaScript host. They are modelled executably below.
IEEE-754 specifics are abstracted: a parsed number is an exact rational,
`NaN` is `Option.none`, and the `Infinity` literal is treated as
unparseable (no claim exercises it). -/

/-- JavaScript `StrWhiteSpace` (the common characters). -/
def isJsWhitespace (c : Char) : Bool :=
  c = ' ' || c = '\t' || c = '\n' || c = '\r' || c = '\x0b' || c = '\x0c'

/-- Numeric value of a digit string (most significant first). -/
def digitsVal (cs : List Char) : ℕ :=
  cs.foldl (fun a c => a * 10 + (c.toNat - '0'.toNat)) 0

/-- Exponent part after `e`/`E`: optional sign then digits; `none` when no
digits follow (then `parseFloat` ignores the exponent marker). -/
def parseExponent (cs : List Char) : Option ℤ :=
  let (sgn, cs₂) : ℤ × List Char :=
    match cs with
    | '+' :: r => (1, r)
    | '-' :: r => (-1, r)
    | _ => (1, cs)
  let ds := cs₂.takeWhile Char.isDigit
  if ds.isEmpty then none else some (sgn * (digitsVal ds : ℤ))

/-- The digit content of the longest unsigned decimal-literal prefix:
integer-part value, fraction-part value, fraction length, exponent;
`none` when not even one digit is present. Kept free of `ℚ` so that it is
kernel-computable; `decPartsVal` below assembles the rational. -/
def parseDecParts (cs : List Char) : Option (ℕ × ℕ × ℕ × ℤ) :=
  let ip := cs.takeWhile Char.isDigit
  let r₁ := cs.dropWhile Char.isDigit
  let (fp, r₂) : List Char × List Char :=
    match r₁ with
    | '.' :: r => (r.takeWhile Char.isDigit, r.dropWhile Char.isDigit)
    | _ => ([], r₁)
  if ip.isEmpty && fp.isEmpty then none
  else
    let e : ℤ :=
      match r₂ with
      | c :: r => if c = 'e' || c = 'E' then (parseExponent r).getD 0 else 0
      | [] => 0
    some (digitsVal ip, digitsVal fp, fp.length, e)

/-- Leading-whitespace and sign handling of `parseFloat`: the flag records
a leading minus sign. Still free of `ℚ`, hence kernel-computable. -/
def parseFloatParts (s : String) : Option (Bool × ℕ × ℕ × ℕ × ℤ) :=
  match s.toList.dropWhile isJsWhitespace with
  | '+' :: r => (parseDecParts r).map (fun p => (false, p))
  | '-' :: r => (parseDecParts r).map (fun p => (true, p))
  | cs => (parseDecParts cs).map (fun p => (false, p))

/-- Value of the signed decimal literal collected by `parseFloatParts`. -/
def signedPartsVal : Bool × ℕ × ℕ × ℕ × ℤ → ℚ
  | (neg, ip, fp, fpLen, e) =>
    let base : ℚ := ((ip : ℚ) + (fp : ℚ) / (10 : ℚ) ^ fpLen) * (10 : ℚ) ^ e
    if neg then -base else base

/-- The host `parseFloat` on a string: skip leading whitespace, optional
sign, then the longest decimal-literal prefix; `none` is `NaN`.
(The `Infinity` literal is abstracted as unparseable.) -/
def parseFloatString (s : String) : Option ℚ :=
  (parseFloatParts s).map signedPartsVal

/-- Host number-to-string. Exact for integer-valued numbers (the only case
any claim touches); the shortest-round-trip formatting of non-integer
floats is abstracted by printing `num/den`. -/
def numToString (q : ℚ) : String :=
  if q.den = 1 then toString q.num else toString q.num ++ "/" ++ toString q.den

/-- Host `ToString` of a value, as invoked by `parseFloat(val)` for a
non-number argument. Arrays stringify as their elements joined with commas
(`Array.prototype.toString`), where `null`/`undefined` elements print as
the empty string; plain objects as `"[object Object]"`. A `Date` prints
its timestamp (the host's human-readable date format is abstracted; no
claim depends on it). Recursion over the nested value is driven by a
structural depth bound so the definition stays kernel-computable. -/
def jsToStringDepth (d : ℕ) : JSValue → String
  | .undefined => "undefined"
  | .null => "null"
  | .bool b => if b then "true" else "false"
  | .num q => numToString q
  | .str s => s
  | .obj _ => "[object Object]"
  | .date t => numToString t
  | .arr xs =>
    match d with
    | 0 => ""
    | d' + 1 =>
      String.intercalate ","
        (xs.map (fun x =>
          match x with
          | .undefined => ""
          | .null => ""
          | x => jsToStringDepth d' x))

mutual
/-- Total number of constructors in a value; strictly bounds nesting
depth. -/
def jsSize : JSValue → ℕ
  | .arr xs => 1 + jsSizeList xs
  | .obj fs => 1 + jsSizeFields fs
  | _ => 1
def jsSizeList : List JSValue → ℕ
  | [] => 0
  | x :: r => jsSize x + jsSizeList r
def jsSizeFields : List (String × JSValue) → ℕ
  | [] => 0
  | (_, x) :: r => jsSize x + jsSizeFields r
end

/-- `jsSize` strictly bounds nesting depth, so this reproduces the host
`ToString` on every value. -/
def jsToString (v : JSValue) : String :=
  jsToStringDepth (jsSize v) v

/-- `parseFloat(val)`: `ToString` then numeric-prefix parsing. -/
def jsParseFloat (v : JSValue) : Option ℚ :=
  parseFloatString (jsToString v)

/-- Models the host `new Date(val)` constructor followed by `getTime()`:
`some t` is a valid timestamp, `none` an Invalid Date. A number (or an
existing `Date`) is its own timestamp, booleans coerce to `0`/`1`, `null`
to `0`. The host's date-string grammar is not modelled: other inputs are
treated as unparseable. No claim exercises `Date` conversion beyond its
success-or-throw shape. -/
def jsNewDate : JSValue → Option ℚ
  | .num q => some q
  | .date t => some t
  | .bool b => some (if b then 1 else 0)
  | .null => some 0
  | _ => none

/-! ### Type descriptors and the schema registry

`src/types.ts` defines `Type = PrimitiveType | ArrayType | ClassType |
DateConstructor | ObjectConstructor`. An `ArrayType` is a JavaScript array
of descriptors (required to be a singleton only at `@Prop` registration
time); a `ClassType` is a class constructor, embedded here by name.
`src/metadata-store.ts` keeps three global tables keyed by constructor:
`classSet`, `classTypeToPropMetadata` and `classTypeToPropValidator`;
they are embedded as one `Registry` record keyed by class name. -/

/-- A conversion target type (`Type` in `src/types.ts`). -/
inductive TypeDesc where
  | int
  | float
  | string
  | boolean
  | date
  | object
  | arrayOf (elems : List TypeDesc)
  | classRef (cname : String)

/-- A property validator (`PropValidator`): receives the value, the
property name and the populated record, returns a failure reason or
nothing. (The in-place mutation some built-in validators perform on the
record is outside this model; no claim depends on it.) -/
def Validator : Type :=
  JSValue → String → JSValue → Option String

/-- Registered metadata of one `@Prop` (`PropMetadata` in `src/types.ts`).
`default` is `JSValue.undefined` when no default was supplied (mirroring the
optional field holding `undefined`). -/
structure PropMetadata where
  name : String
  type : TypeDesc
  isOptional : Bool
  default : JSValue

/-- The decorator-facing options of `@Prop` (`options` parameter). -/
structure PropOptions where
  type : TypeDesc
  isOptional : Option Bool := none
  default : JSValue := .undefined
  validate : List Validator := []

/-- The global metadata store (`src/metadata-store.ts`): `classSet`,
`classTypeToPropMetadata`, `classTypeToPropValidator`. -/
structure Registry where
  classSet : List String
  propMeta : List (String × List (String × PropMetadata))
  propValidators : List (String × List (String × List Validator))

/-- The store before any declaration. -/
def emptyRegistry : Registry :=
  { classSet := [], propMeta := [], propValidators := [] }

/-- Merged-schema metadata lookup: the registered metadata of field
`propName` on class `cname`. -/
def registryMeta (reg : Registry) (cname propName : String) : Option PropMetadata :=
  (mapGet reg.propMeta cname).bind (fun m => mapGet m propName)

/-- Merged-schema validator lookup: the registered validator list of field
`propName` on class `cname`. -/
def registryValidators (reg : Registry) (cname propName : String) : Option (List Validator) :=
  (mapGet reg.propValidators cname).bind (fun m => mapGet m propName)

/-! ### The decorators (`src/decorators.ts`) -/

/-- The `ArrayType` well-formedness check at the top of `Prop`:
`Array.isArray(options.type) && options.type.length !== 1`. -/
def isMalformedArrayType : TypeDesc → Bool
  | .arrayOf es => es.length ≠ 1
  | _ => false

/-- One application of the `@Prop` decorator body to a property of class
`cname`: records the property metadata (overwriting a same-named entry)
and its validators (set when non-empty, deleted when empty). Throws when
an `ArrayType` does not have exactly one element. -/
def applyProp (reg : Registry) (cname propName : String) (o : PropOptions) :
    Except String Registry :=
  if isMalformedArrayType o.type then
    .error "ArrayType must have only one element"
  else
    let currentMetadata : PropMetadata :=
      { name := propName
        type := o.type
        isOptional :=
          match o.default with
          | .undefined => (match o.isOptional with | some true => true | _ => false)
          | _ => true
        default := o.default }
    let metaMap := (mapGet reg.propMeta cname).getD []
    let valMap := (mapGet reg.propValidators cname).getD []
    let valMap' :=
      if o.validate.length > 0 then mapSet valMap currentMetadata.name o.validate
      else mapDelete valMap currentMetadata.name
    .ok
      { reg with
        propMeta := mapSet reg.propMeta cname (mapSet metaMap currentMetadata.name currentMetadata)
        propValidators := mapSet reg.propValidators cname valMap' }

/-- The parent-to-child copy loop of `@Class` applied to the metadata map:
each parent entry is copied (keyed by its `name`) only when the child has
no entry of that name. -/
def inheritMeta (cur parentEntries : List (String × PropMetadata)) :
    List (String × PropMetadata) :=
  parentEntries.foldl
    (fun m kv => if mapHas m kv.2.name then m else mapSet m kv.2.name kv.2) cur

/-- The parent-to-child copy loop of `@Class` applied to the validator
map: each parent entry is copied (keyed by property name) only when the
child has no validator entry of that name. -/
def inheritValidators (cur parentEntries : List (String × List Validator)) :
    List (String × List Validator) :=
  parentEntries.foldl
    (fun m kv => if mapHas m kv.1 then m else mapSet m kv.1 kv.2) cur

/-- Adding to `classSet` (a JavaScript `Set`). -/
def addClass (s : List String) (c : String) : List String :=
  if s.contains c then s else s ++ [c]

/-- One application of the `@Class` decorator body to class `cname` whose
prototype parent is `parent` (`none` for a base class, whose prototype
carries no metadata): merge the parent's metadata and validator maps into
the child's (child entries win), then register the class. -/
def applyClass (reg : Registry) (cname : String) (parent : Option String) : Registry :=
  let reg₁ :=
    match parent.bind (fun p => mapGet reg.propMeta p) with
    | none => reg
    | some parentMeta =>
      let cur := (mapGet reg.propMeta cname).getD []
      { reg with propMeta := mapSet reg.propMeta cname (inheritMeta cur parentMeta) }
  let reg₂ :=
    match parent.bind (fun p => mapGet reg₁.propValidators p) with
    | none => reg₁
    | some parentVal =>
      let cur := (mapGet reg₁.propValidators cname).getD []
      { reg₁ with
        propValidators := mapSet reg₁.propValidators cname (inheritValidators cur parentVal) }
  { reg₂ with classSet := addClass reg₂.classSet cname }

/-! ### The conversion engine (`src/converters.ts`)

Thrown `Error`s are embedded as structured `Except` errors (the
human-readable message strings of the source are abstracted into
constructors carrying the identifying data). The engine recurses on the
value being converted, but a `default` substituted during field
population is not a subvalue of the input, and a cyclic schema with
defaults can make the real engine diverge (a stack overflow on the host);
recursion is therefore driven by an explicit fuel, decremented at each
`convertToType` entry, with exhaustion reported as `outOfFuel` (an
artifact of the embedding, distinct from every source error). -/

/-- The failure cases of the engine. -/
inductive ConvErr where
  | outOfFuel
  | toIntFail
  | toFloatFail
  | toStringFail
  | toBooleanFail
  | toDateFail
  | toObjectFail
  | arrayElemTypeUndefined
  | arrayValNotArray
  | classValNotObject (cname : String)
  | missingRequiredField (cname propName : String)
  | validationFail (cname propName reason : String)
  | unsupportedToType
  | undefinedResult
  deriving DecidableEq, Repr

/-- `convertToInt`: a number is taken as-is, anything else goes through
`parseFloat`; fails on `NaN` or a non-zero fractional remainder
(`parsed % 1 !== 0`, i.e. the reduced denominator is not `1`). -/
def convertToInt (val : JSValue) : Except ConvErr JSValue :=
  let parsed : Option ℚ :=
    match val with
    | .num q => some q
    | _ => jsParseFloat val
  match parsed with
  | none => .error .toIntFail
  | some q => if q.den = 1 then .ok (.num q) else .error .toIntFail

/-- `convertToFloat`: same coercion as `convertToInt`, failing only on
`NaN`. -/
def convertToFloat (val : JSValue) : Except ConvErr JSValue :=
  let parsed : Option ℚ :=
    match val with
    | .num q => some q
    | _ => jsParseFloat val
  match parsed with
  | none => .error .toFloatFail
  | some q => .ok (.num q)

/-- `convertToString` as written in the source: the tests are
`val === 'string'` and `val === 'number'` (comparisons against the string
literals, not `typeof val` checks), so only the literal strings
`"string"` and `"number"` are ever accepted; `'' + val` on the accepted
`"number"` value yields `"number"` itself. -/
def convertToString (val : JSValue) : Except ConvErr JSValue :=
  match val with
  | .str "string" => .ok (.str "string")
  | .str "number" => .ok (.str "number")
  | _ => .error .toStringFail

/-- `convertToBoolean` as written in the source: the first test is
`val === 'boolean'` (a comparison against the string literal, not a
`typeof` check), which returns that string unchanged; then the exact
strings `"true"`/`"false"` convert, and everything else throws. -/
def convertToBoolean (val : JSValue) : Except ConvErr JSValue :=
  match val with
  | .str "boolean" => .ok (.str "boolean")
  | .str "true" => .ok (.bool true)
  | .str "false" => .ok (.bool false)
  | _ => .error .toBooleanFail

/-- `convertToDate`: `new Date(val)`, failing when the result is an
Invalid Date. -/
def convertToDate (val : JSValue) : Except ConvErr JSValue :=
  match jsNewDate val with
  | none => .error .toDateFail
  | some t => .ok (.date t)

/-- `convertToObject` as written in the source: the test is
`val !== 'object'` (a comparison against the string literal, not a
`typeof` check), so only the literal string `"object"` passes, returned
unchanged. -/
def convertToObject (val : JSValue) : Except ConvErr JSValue :=
  match val with
  | .str "object" => .ok (.str "object")
  | _ => .error .toObjectFail

/-- Property read `val[name]`: the first binding on an object, `undefined`
otherwise (array index/`length` properties are not modelled; the engine
only reads declared field names). -/
def jsGetProp (val : JSValue) (name : String) : JSValue :=
  match val with
  | .obj fields => (mapGet fields name).getD .undefined
  | _ => .undefined

/-- The inner validator loop of `convertToClass` step 3: run the
validators in order; `if (!!error) throw` treats only a non-empty reason
string as a failure (an empty string, like no return value, lets the loop
continue). Returns the first non-empty reason, if any. -/
def runValidators : List Validator → JSValue → String → JSValue → Option String
  | [], _, _, _ => none
  | v :: vs, propValue, propName, parsed =>
    match v propValue propName parsed with
    | some e => if e = "" then runValidators vs propValue propName parsed else some e
    | none => runValidators vs propValue propName parsed

/-- The outer validation loop of `convertToClass` step 3: walk the
validator map in insertion order; a field whose populated value is
`undefined` is skipped (it was optional and omitted); the first non-empty
reason aborts with a validation error. -/
def validateProps (cname : String) :
    List (String × List Validator) → List (String × JSValue) → Except ConvErr Unit
  | [], _ => .ok ()
  | (propName, validators) :: rest, parsed =>
    let propValue := jsGetProp (.obj parsed) propName
    if propValue.isUndefined then validateProps cname rest parsed
    else
      match runValidators validators propValue propName (.obj parsed) with
      | some e => .error (.validationFail cname propName e)
      | none => validateProps cname rest parsed

/-- One iteration of the field-population loop of `convertToClass` step 2
(`convFn` is the recursive `convertToType` at the current fuel):
read `raw = val[name]`; if it is `undefined` or `null` substitute the
default; if still nullish, a required field is a missing-field error and
a strictly-`undefined` optional field is skipped (not materialized);
otherwise (including an explicit or defaulted `null`) convert the value
and store it under the field's name. -/
def populatePropAux (convFn : JSValue → TypeDesc → Except ConvErr JSValue)
    (cname : String) (val : JSValue) (pm : PropMetadata)
    (parsed : List (String × JSValue)) : Except ConvErr (List (String × JSValue)) :=
  let raw := jsGetProp val pm.name
  let propValue := if raw.isNullish then pm.default else raw
  if propValue.isNullish then
    if pm.isOptional = false then .error (.missingRequiredField cname pm.name)
    else if propValue.isUndefined then .ok parsed
    else (convFn propValue pm.type).map (fun c => mapSet parsed pm.name c)
  else
    (convFn propValue pm.type).map (fun c => mapSet parsed pm.name c)

/-- The field-population loop of `convertToClass` step 2, over the
metadata entries in insertion order. -/
def populatePropsAux (convFn : JSValue → TypeDesc → Except ConvErr JSValue)
    (cname : String) (val : JSValue) :
    List PropMetadata → List (String × JSValue) → Except ConvErr (List (String × JSValue))
  | [], parsed => .ok parsed
  | pm :: rest, parsed =>
    match populatePropAux convFn cname val pm parsed with
    | .error e => .error e
    | .ok parsed' => populatePropsAux convFn cname val rest parsed'

/-- `convertToClass`: reject non-objects (`typeof val !== 'object'`),
return `null` for `null` (by design), otherwise populate the declared
fields (step 2) into a fresh record and then validate it (step 3).
The `Object.setPrototypeOf` of step 1 only grafts methods onto the new
record and is not modelled. -/
def convertToClassAux (convFn : JSValue → TypeDesc → Except ConvErr JSValue)
    (reg : Registry) (val : JSValue) (cname : String) : Except ConvErr JSValue :=
  if jsTypeof val ≠ "object" then .error (.classValNotObject cname)
  else
    match val with
    | .null => .ok .null
    | _ =>
      let props : List PropMetadata :=
        match mapGet reg.propMeta cname with
        | some m => m.map Prod.snd
        | none => []
      match populatePropsAux convFn cname val props [] with
      | .error e => .error e
      | .ok parsed =>
        match mapGet reg.propValidators cname with
        | some vm =>
          match validateProps cname vm parsed with
          | .error e => .error e
          | .ok _ => .ok (.obj parsed)
        | none => .ok (.obj parsed)

/-- The element loop of `convertToArray`: convert each element in order,
preserving length and order. (The source pre-allocates the output array;
a performance property with no semantic content here.) -/
def convertElemsAux (convFn : JSValue → TypeDesc → Except ConvErr JSValue)
    (elementType : TypeDesc) : List JSValue → Except ConvErr (List JSValue)
  | [] => .ok []
  | x :: rest =>
    match convFn x elementType with
    | .error e => .error e
    | .ok c =>
      match convertElemsAux convFn elementType rest with
      | .error e => .error e
      | .ok cs => .ok (c :: cs)

/-- `convertToArray`: fail when the element type is `undefined`
(`toType[0]` of an empty `ArrayType`), fail when the input is not an
array, otherwise convert the elements. -/
def convertToArrayAux (convFn : JSValue → TypeDesc → Except ConvErr JSValue)
    (val : JSValue) (elementType : Option TypeDesc) : Except ConvErr JSValue :=
  match elementType with
  | none => .error .arrayElemTypeUndefined
  | some et =>
    match val with
    | .arr xs =>
      match convertElemsAux convFn et xs with
      | .error e => .error e
      | .ok cs => .ok (.arr cs)
    | _ => .error .arrayValNotArray

/-- The post-conversion check at the bottom of `convertToType`: a
successful conversion must not produce `undefined` (`null` is allowed). -/
def finishConvert : Except ConvErr JSValue → Except ConvErr JSValue
  | .ok .undefined => .error .undefinedResult
  | r => r

/-- `convertToType(val, toType)`: dispatch on the target type —
primitives and `Date`/`Object` to their converters, an `ArrayType` to
`convertToArray` with its first element descriptor, a registered class to
`convertToClass`, anything else unsupported — then apply the
must-not-be-`undefined` check. Fuel bounds the recursion depth. -/
def convertToType : ℕ → Registry → JSValue → TypeDesc → Except ConvErr JSValue
  | 0, _, _, _ => .error .outOfFuel
  | fuel + 1, reg, val, toType =>
    finishConvert
      (match toType with
      | .int => convertToInt val
      | .float => convertToFloat val
      | .string => convertToString val
      | .boolean => convertToBoolean val
      | .date => convertToDate val
      | .object => convertToObject val
      | .arrayOf elems => convertToArrayAux (convertToType fuel reg) val elems.head?
      | .classRef cname =>
        if reg.classSet.contains cname then
          convertToClassAux (convertToType fuel reg) reg val cname
        else .error .unsupportedToType)

/-- `convertToClass` at a given fuel (the fuel already decremented by the
dispatching `convertToType`). -/
def convertToClass (fuel : ℕ) (reg : Registry) (val : JSValue) (cname : String) :
    Except ConvErr JSValue :=
  convertToClassAux (convertToType fuel reg) reg val cname

/-- The field-population loop at a given fuel. -/
def populateProps (fuel : ℕ) (reg : Registry) (cname : String) (val : JSValue)
    (props : List PropMetadata) (parsed : List (String × JSValue)) :
    Except ConvErr (List (String × JSValue)) :=
  populatePropsAux (convertToType fuel reg) cname val props parsed

/-! ### Concrete declarations and inputs used by the claim witnesses -/

/-- A parent-class validator, used to exhibit the inheritance behavior of
the decorators on a concrete declaration. -/
def parentFieldValidator : Validator :=
  fun _ _ _ => some "parent validator fired"

/-- Registry after declaring `@Class class P` with
`@Prop({type: String, validate: parentFieldValidator}) t`. -/
def c4ParentRegistry : Registry :=
  match applyProp emptyRegistry "P" "t"
      { type := .string, validate := [parentFieldValidator] } with
  | .ok r => applyClass r "P" none
  | .error _ => emptyRegistry

/-- Registry after the child's own `@Prop({type: String, default: "W"}) t`
(redeclaring the parent's field `t` with no validators of its own), before
its `@Class` decorator runs. -/
def c4ChildDeclared : Registry :=
  match applyProp c4ParentRegistry "C" "t" { type := .string, default := .str "W" } with
  | .ok r => r
  | .error _ => emptyRegistry

/-- Registry after `@Class class C extends P` completes the merge. -/
def c4ChildRegistry : Registry :=
  applyClass c4ChildDeclared "C" (some "P")

/-- Registry with one registered (field-less) class, for the C8 witness. -/
def c8Registry : Registry :=
  { emptyRegistry with classSet := ["A"] }

/-- A required `Int` field with no default, for the C6 witness. -/
def c6RequiredId : PropMetadata :=
  { name := "id", type := .int, isOptional := false, default := .undefined }

/-- Registry with one class `C` declaring only the required field `id`. -/
def c6Registry : Registry :=
  { classSet := ["C"]
    propMeta := [("C", [("id", c6RequiredId)])]
    propValidators := [] }

/-- An optional `Int` field with default `0`, for the C6 witness. -/
def c6OptionalDefault : PropMetadata :=
  { name := "n", type := .int, isOptional := true, default := .num 0 }

/-- An optional field with no default, for the C6 witness. -/
def c6OptionalNoDefault : PropMetadata :=
  { name := "zip", type := .string, isOptional := true, default := .undefined }

/-- A validator that always passes, for the C7 witness. -/
def vPassAll : Validator := fun _ _ _ => none

/-- A validator returning the empty reason (treated as success by the
`!!error` check), for the C7 witness. -/
def vEmptyReason : Validator := fun _ _ _ => some ""

/-- The first genuinely failing validator, for the C7 witness. -/
def vBad : Validator := fun _ _ _ => some "bad"

/-- A validator on a later field that must never run, for the C7
witness. -/
def vNeverRun : Validator := fun _ _ _ => some "later validator fired"

/-- A required `Int` field named `n`, for the C7 witness. -/
def c7IntField (n : String) : PropMetadata :=
  { name := n, type := .int, isOptional := false, default := .undefined }

/-- Registry with one class `K` of fields `a`, `b`, `z`: `a`'s validator
passes, `b`'s validators are an empty-reason one then a failing one, and
`z`'s validator would fail loudly if it ever ran. -/
def c7Registry : Registry :=
  { classSet := ["K"]
    propMeta := [("K", [("a", c7IntField "a"), ("b", c7IntField "b"), ("z", c7IntField "z")])]
    propValidators := [("K", [("a", [vPassAll]), ("b", [vEmptyReason, vBad]), ("z", [vNeverRun])])] }

/-- A fully-populated input for class `K`. -/
def c7Input : JSValue := .obj [("a", .num 1), ("b", .num 2), ("z", .num 3)]

/-! ### Helper lemmas -/

@[simp] theorem mapGet_nil {α : Type} (k : String) :
    mapGet ([] : List (String × α)) k = none := rfl

@[simp] theorem mapGet_mapSet_self {α : Type} (m : List (String × α)) (k : String) (v : α) :
    mapGet (mapSet m k v) k = some v := by
  induction m with
  | nil => simp [mapSet, mapGet]
  | cons hd tl ih =>
    obtain ⟨k', v'⟩ := hd
    by_cases h : k' = k <;> simp [mapSet, mapGet, h, ih]

theorem mapGet_mapSet_ne {α : Type} (m : List (String × α)) (k k' : String) (v : α)
    (h : k ≠ k') : mapGet (mapSet m k v) k' = mapGet m k' := by
  induction m with
  | nil => simp [mapSet, mapGet, h]
  | cons hd tl ih =>
    obtain ⟨k₀, v₀⟩ := hd
    by_cases h₀ : k₀ = k
    · subst h₀
      simp [mapSet, mapGet, h]
    · simp [mapSet, mapGet, h₀, ih]

@[simp] theorem finishConvert_error (e : ConvErr) :
    finishConvert (.error e) = .error e := rfl

@[simp] theorem finishConvert_ok_null : finishConvert (.ok .null) = .ok .null := rfl

@[simp] theorem finishConvert_ok_num (q : ℚ) :
    finishConvert (.ok (.num q)) = .ok (.num q) := rfl

/-- A result that survives the final check of `convertToType` is not
`undefined`. -/
theorem finishConvert_ok_defined (e : Except ConvErr JSValue) (r : JSValue)
    (h : finishConvert e = .ok r) : r ≠ .undefined := by
  cases e with
  | error e => simp [finishConvert] at h
  | ok v => cases v <;> simp [finishConvert] at h <;> simp [← h]

/-- The copy-if-absent loop never changes an existing binding (it only
appends entries whose key is missing). -/
theorem mapGet_inheritMeta_of_mem (parentEntries : List (String × PropMetadata))
    (cur : List (String × PropMetadata)) (k : String) (v : PropMetadata)
    (h : mapGet cur k = some v) :
    mapGet (inheritMeta cur parentEntries) k = some v := by
  induction parentEntries generalizing cur with
  | nil => exact h
  | cons kv rest ih =>
    simp only [inheritMeta, List.foldl_cons] at *
    by_cases hhas : mapHas cur kv.2.name
    · simpa [hhas] using ih cur h
    · have hne : kv.2.name ≠ k := by
        intro he
        rw [he] at hhas
        simp [mapHas, h] at hhas
      simpa [hhas] using ih (mapSet cur kv.2.name kv.2) (by rw [mapGet_mapSet_ne _ _ _ _ hne]; exact h)

/-- Lookup after the validator copy-if-absent loop: the current (child)
binding when present, otherwise the first parent binding. -/
theorem mapGet_inheritValidators (parentEntries : List (String × List Validator))
    (cur : List (String × List Validator)) (k : String) :
    mapGet (inheritValidators cur parentEntries) k
      = match mapGet cur k with
        | some v => some v
        | none => mapGet parentEntries k := by
  induction parentEntries generalizing cur with
  | nil => cases h : mapGet cur k <;> simp [inheritValidators, h]
  | cons kv rest ih =>
    obtain ⟨k₁, v₁⟩ := kv
    simp only [inheritValidators, List.foldl_cons] at *
    by_cases hhas : mapHas cur k₁
    · rw [if_pos hhas, ih cur]
      cases h : mapGet cur k with
      | some v => simp
      | none =>
        have hne : k₁ ≠ k := by
          intro he
          rw [he] at hhas
          simp [mapHas, h] at hhas
        simp [mapGet, hne]
    · rw [if_neg hhas, ih (mapSet cur k₁ v₁)]
      by_cases hk : k₁ = k
      · subst hk
        have hnone : mapGet cur k₁ = none := by
          cases h : mapGet cur k₁ <;> simp [mapHas, h] at hhas ⊢
        simp [mapGet_mapSet_self, hnone, mapGet]
      · rw [mapGet_mapSet_ne _ _ _ _ hk]
        cases h : mapGet cur k <;> simp [h, mapGet, hk]

/-- The `@Class` body changes the metadata table only through its
metadata-merge step. -/
theorem applyClass_propMeta (reg : Registry) (cname pname : String) :
    (applyClass reg cname (some pname)).propMeta
      = match mapGet reg.propMeta pname with
        | none => reg.propMeta
        | some parentMeta =>
          mapSet reg.propMeta cname
            (inheritMeta ((mapGet reg.propMeta cname).getD []) parentMeta) := by
  unfold applyClass
  cases h₁ : mapGet reg.propMeta pname <;>
    cases h₂ : mapGet reg.propValidators pname <;>
      simp [h₁, h₂]

/-- The `@Class` body changes the validator table only through its
validator-merge step (in particular the metadata-merge step leaves it
untouched). -/
theorem applyClass_propValidators (reg : Registry) (cname pname : String) :
    (applyClass reg cname (some pname)).propValidators
      = match mapGet reg.propValidators pname with
        | none => reg.propValidators
        | some parentVal =>
          mapSet reg.propValidators cname
            (inheritValidators ((mapGet reg.propValidators cname).getD []) parentVal) := by
  unfold applyClass
  cases h₁ : mapGet reg.propMeta pname <;>
    cases h₂ : mapGet reg.propValidators pname <;>
      simp [h₁, h₂]

/-- The merged validator lookup of a freshly `@Class`-merged child class:
the child's own entry when it has one, the parent's entry otherwise. -/
theorem applyClass_validatorLookup (reg : Registry) (cname pname n : String) :
    registryValidators (applyClass reg cname (some pname)) cname n
      = (if (registryValidators reg cname n).isSome then registryValidators reg cname n
         else registryValidators reg pname n) := by
  rw [registryValidators, applyClass_propValidators]
  cases h₁ : mapGet reg.propValidators pname with
  | none =>
    cases h₂ : mapGet reg.propValidators cname with
    | none => simp [registryValidators, h₁, h₂]
    | some m =>
      cases h₃ : mapGet m n <;> simp [registryValidators, h₁, h₂, h₃]
  | some parentVal =>
    rw [mapGet_mapSet_self, Option.some_bind, mapGet_inheritValidators]
    cases h₂ : mapGet reg.propValidators cname with
    | none => simp [registryValidators, h₁, h₂]
    | some m =>
      cases h₃ : mapGet m n <;> simp [registryValidators, h₁, h₂, h₃]

/-- The population loop processes a concatenation left to right,
propagating the first error. -/
theorem populatePropsAux_append (convFn : JSValue → TypeDesc → Except ConvErr JSValue)
    (cname : String) (val : JSValue) (pre post : List PropMetadata)
    (p₀ : List (String × JSValue)) :
    populatePropsAux convFn cname val (pre ++ post) p₀
      = match populatePropsAux convFn cname val pre p₀ with
        | .error e => .error e
        | .ok p₁ => populatePropsAux convFn cname val post p₁ := by
  induction pre generalizing p₀ with
  | nil => simp [populatePropsAux]
  | cons pm rest ih =>
    simp only [List.cons_append, populatePropsAux]
    cases h : populatePropAux convFn cname val pm p₀ <;> simp [h, ih]

/-- A successful population step either leaves the record unchanged
(optional field skipped) or stores a converted value under the field's
own name. -/
theorem populatePropAux_ok_cases (convFn : JSValue → TypeDesc → Except ConvErr JSValue)
    (cname : String) (val : JSValue) (pm : PropMetadata)
    (p₀ p' : List (String × JSValue))
    (h : populatePropAux convFn cname val pm p₀ = .ok p') :
    p' = p₀ ∨ ∃ c, p' = mapSet p₀ pm.name c := by
  rw [populatePropAux] at h
  set pv := if (jsGetProp val pm.name).isNullish then pm.default else jsGetProp val pm.name with hpv
  by_cases hnull : pv.isNullish
  · rw [if_pos hnull] at h
    by_cases hopt : pm.isOptional = false
    · rw [if_pos hopt] at h
      exact absurd h (by simp)
    · rw [if_neg hopt] at h
      by_cases hUndefined : pv.isUndefined
      · rw [if_pos hUndefined] at h
        exact Or.inl (Except.ok.inj h).symm
      · rw [if_neg hUndefined] at h
        cases hc : convFn pv pm.type with
        | error e => rw [hc] at h; exact absurd h (by simp [Except.map])
        | ok c =>
          rw [hc] at h
          exact Or.inr ⟨c, by simpa [Except.map] using h.symm⟩
  · rw [if_neg hnull] at h
    cases hc : convFn pv pm.type with
    | error e => rw [hc] at h; exact absurd h (by simp [Except.map])
    | ok c =>
      rw [hc] at h
      exact Or.inr ⟨c, by simpa [Except.map] using h.symm⟩

/-- Population never materializes a key that no processed field declares:
a name absent from the record and from the field list stays absent. -/
theorem populatePropsAux_mapGet_none (convFn : JSValue → TypeDesc → Except ConvErr JSValue)
    (cname : String) (val : JSValue) (props : List PropMetadata)
    (p₀ p₁ : List (String × JSValue)) (k : String)
    (hk : mapGet p₀ k = none) (hnames : ∀ pm ∈ props, pm.name ≠ k)
    (h : populatePropsAux convFn cname val props p₀ = .ok p₁) :
    mapGet p₁ k = none := by
  induction props generalizing p₀ with
  | nil =>
    rw [populatePropsAux] at h
    exact (Except.ok.inj h) ▸ hk
  | cons pm rest ih =>
    rw [populatePropsAux] at h
    cases hstep : populatePropAux convFn cname val pm p₀ with
    | error e => rw [hstep] at h; exact absurd h (by simp)
    | ok p' =>
      rw [hstep] at h
      refine ih p' ?_ (fun q hq => hnames q (List.mem_cons_of_mem _ hq)) h
      rcases populatePropAux_ok_cases convFn cname val pm p₀ p' hstep with rfl | ⟨c, rfl⟩
      · exact hk
      · rw [mapGet_mapSet_ne _ _ _ _ (hnames pm (List.mem_cons_self pm rest))]
        exact hk

/-- The validation loop processes a concatenation left to right,
propagating the first failure. -/
theorem validateProps_append (cname : String) (pre post : List (String × List Validator))
    (parsed : List (String × JSValue)) :
    validateProps cname (pre ++ post) parsed
      = match validateProps cname pre parsed with
        | .error e => .error e
        | .ok _ => validateProps cname post parsed := by
  induction pre with
  | nil => simp [validateProps]
  | cons kv rest ih =>
    obtain ⟨propName, validators⟩ := kv
    simp only [List.cons_append, validateProps]
    by_cases hval : (jsGetProp (.obj parsed) propName).isUndefined
    · simp [hval, ih]
    · cases hrun : runValidators validators (jsGetProp (.obj parsed) propName) propName
          (.obj parsed) <;> simp [hval, hrun, ih]

/-- The inner validator loop on a concatenation: the first non-empty
reason of the prefix wins, otherwise the suffix runs. -/
theorem runValidators_append (a b : List Validator) (pv : JSValue) (n : String)
    (parsed : JSValue) :
    runValidators (a ++ b) pv n parsed
      = match runValidators a pv n parsed with
        | some e => some e
        | none => runValidators b pv n parsed := by
  induction a with
  | nil => simp [runValidators]
  | cons v vs ih =>
    simp only [List.cons_append, runValidators]
    cases h : v pv n parsed with
    | none => simp [ih]
    | some e =>
      by_cases he : e = "" <;> simp [he, ih]

/-! ### The claims -/

/-- C1 (code bug). The claim says `convertToType(val, String)` returns
any string input unchanged and stringifies numeric input. The code as
written compares `val` itself (not `typeof val`) against the literals
`'string'`/`'number'`: an ordinary string such as `"Tifa Lockhart"` is
rejected, the number `5` is rejected, and only the literal string
`"string"` (or `"number"`) is accepted — contradicting the repository's
own README example and test suite, which convert ordinary string fields. -/
theorem convertToString_rejects_ordinary_strings :
    convertToType 1 emptyRegistry (.str "Tifa Lockhart") .string = .error .toStringFail
    ∧ convertToType 1 emptyRegistry (.num 5) .string = .error .toStringFail
    ∧ convertToType 1 emptyRegistry (.str "string") .string = .ok (.str "string") :=
  ⟨rfl, rfl, rfl⟩

/-- C2 (code bug). The claim says `convertToType(val, Boolean)`
returns a boolean input unchanged, converts the exact strings
`"true"`/`"false"`, and fails on everything else (e.g. `1`). The code as
written compares `val` itself (not `typeof val`) against the literal
`'boolean'`: the boolean `true` is rejected, while the literal string
`"boolean"` is accepted and returned (still a string). The string and
number cases do behave as claimed. -/
theorem convertToBoolean_rejects_booleans :
    convertToType 1 emptyRegistry (.bool true) .boolean = .error .toBooleanFail
    ∧ convertToType 1 emptyRegistry (.bool false) .boolean = .error .toBooleanFail
    ∧ convertToType 1 emptyRegistry (.str "boolean") .boolean = .ok (.str "boolean")
    ∧ convertToType 1 emptyRegistry (.str "true") .boolean = .ok (.bool true)
    ∧ convertToType 1 emptyRegistry (.str "false") .boolean = .ok (.bool false)
    ∧ convertToType 1 emptyRegistry (.num 1) .boolean = .error .toBooleanFail :=
  ⟨rfl, rfl, rfl, rfl, rfl, rfl⟩

/-- C3 (code bug). The claim (and the legacy `convertValueToType`
implementation in `src/index.ts`, which has an explicit
`sourceValue === null` branch "by design") says converting `null` to an
array type yields `null`. `convertToArray` in `src/converters.ts` checks
only `Array.isArray(val)` and therefore throws on `null`. -/
theorem convertToArray_throws_on_null :
    convertToType 1 emptyRegistry .null (.arrayOf [.int]) = .error .arrayValNotArray :=
  rfl

/-- C4 (counterexample). The claim says a redeclared field's parent
validators never survive the merge unless the child redeclared them. On a
concrete declaration where the child redeclares field `t` (its metadata
replaces the parent's) but declares no validators for it, the parent's
validator list is still attached to `t` in the merged schema: `@Prop`
deletes the child's (empty) validator entry, so the `@Class` merge finds
no child entry and copies the parent's. (The repository's own test DTO
documents this: `Weapon.type` redeclares a field and is annotated
"validate is inherited".) -/
theorem Class_merge_keeps_parent_validators_counterexample :
    registryMeta c4ChildRegistry "C" "t"
      = some { name := "t", type := .string, isOptional := true, default := .str "W" }
    ∧ registryValidators c4ChildDeclared "C" "t" = none
    ∧ registryValidators c4ChildRegistry "C" "t" = some [parentFieldValidator] :=
  ⟨rfl, rfl, rfl⟩

/-- C4 (amended, confirmed). When a child record type redeclares a
field under the same name as a parent's field, the child's declaration
fully replaces the parent's field metadata (type, optionality, default);
the field's validators are governed by the independent per-name rule: the
merged schema carries the child's validator list when the child declared
one for that name, and otherwise keeps the parent's. -/
theorem Class_merge_replaces_redeclared_field (reg : Registry) (cname pname n : String)
    (md : PropMetadata) (h : registryMeta reg cname n = some md) :
    registryMeta (applyClass reg cname (some pname)) cname n = some md
    ∧ registryValidators (applyClass reg cname (some pname)) cname n
        = (if (registryValidators reg cname n).isSome then registryValidators reg cname n
           else registryValidators reg pname n) := by
  refine ⟨?_, applyClass_validatorLookup reg cname pname n⟩
  rw [registryMeta, applyClass_propMeta]
  rw [registryMeta] at h
  cases h₁ : mapGet reg.propMeta cname with
  | none => simp [h₁] at h
  | some m =>
    rw [h₁, Option.some_bind] at h
    cases h₂ : mapGet reg.propMeta pname with
    | none => simp [h₁, h]
    | some parentMeta =>
      rw [mapGet_mapSet_self, Option.some_bind]
      exact mapGet_inheritMeta_of_mem parentMeta _ n md (by simpa [h₁] using h)

/-- Witness for the amended C4 on the concrete declaration above: the
child's redeclared metadata for `t` survives the merge unchanged, and the
merged validator entry for `t` is the parent's (the child declared none). -/
theorem Class_merge_replaces_redeclared_field_witness :
    registryMeta c4ChildDeclared "C" "t"
      = some { name := "t", type := .string, isOptional := true, default := .str "W" }
    ∧ registryMeta c4ChildRegistry "C" "t"
      = some { name := "t", type := .string, isOptional := true, default := .str "W" }
    ∧ registryValidators c4ChildRegistry "C" "t" = registryValidators c4ChildDeclared "P" "t" :=
  ⟨rfl,
    (Class_merge_replaces_redeclared_field c4ChildDeclared "C" "P" "t"
      { name := "t", type := .string, isOptional := true, default := .str "W" } rfl).1,
    (Class_merge_replaces_redeclared_field c4ChildDeclared "C" "P" "t"
      { name := "t", type := .string, isOptional := true, default := .str "W" } rfl).2⟩

/-- C5 (confirmed). Validator inheritance is decided per field name,
independently of field metadata: in the merged schema produced by the
child's `@Class`, a field name carries the child's validator list exactly
when the child declared validators for that name, and the parent's list
otherwise; and the outcome is unchanged under arbitrary replacement of the
metadata table. -/
theorem validator_inheritance_per_name (reg : Registry) (cname pname n : String) :
    (registryValidators (applyClass reg cname (some pname)) cname n
      = if (registryValidators reg cname n).isSome then registryValidators reg cname n
        else registryValidators reg pname n)
    ∧ ∀ meta₂ : List (String × List (String × PropMetadata)),
        registryValidators (applyClass { reg with propMeta := meta₂ } cname (some pname)) cname n
          = registryValidators (applyClass reg cname (some pname)) cname n := by
  refine ⟨applyClass_validatorLookup reg cname pname n, fun meta₂ => ?_⟩
  rw [applyClass_validatorLookup, applyClass_validatorLookup]
  rfl

/-- C8 (confirmed). `null` converted to any registered class yields
`null` (`typeof null === "object"` passes the object check and the
explicit `val === null` branch returns `null`), while `null` converted to
`Int` fails (`parseFloat(null)` parses the string `"null"`, giving
`NaN`). -/
theorem convert_null_class_vs_int (n : ℕ) (reg : Registry) (cname : String)
    (h : reg.classSet.contains cname = true) :
    convertToType (n + 1) reg .null (.classRef cname) = .ok .null
    ∧ convertToType (n + 1) reg .null .int = .error .toIntFail := by
  have h' : cname ∈ reg.classSet := by simpa using h
  constructor
  · simp [convertToType, h', convertToClassAux, jsTypeof]
  · have hint : convertToInt .null = .error .toIntFail := rfl
    simp [convertToType, hint]

/-- Witness for C8 at a concrete registered class. -/
theorem convert_null_class_vs_int_witness :
    c8Registry.classSet.contains "A" = true
    ∧ convertToType 1 c8Registry .null (.classRef "A") = .ok .null
    ∧ convertToType 1 c8Registry .null .int = .error .toIntFail :=
  ⟨rfl, (convert_null_class_vs_int 0 c8Registry "A" rfl).1,
    (convert_null_class_vs_int 0 c8Registry "A" rfl).2⟩

/-- C9 (confirmed). `Int` (and `Float`) conversion of a non-number
runs it through `parseFloat`, which is prefix-tolerant: the non-numeric
string `"5abc"` converts to `5` rather than failing. -/
theorem convertToInt_prefix_parses :
    convertToType 1 emptyRegistry (.str "5abc") .int = .ok (.num 5)
    ∧ convertToType 1 emptyRegistry (.str "5abc") .float = .ok (.num 5) := by
  have hp : parseFloatString "5abc" = some 5 := by
    have h : parseFloatParts "5abc" = some (false, 5, 0, 0, 0) := by decide
    simp [parseFloatString, h, signedPartsVal]
  have hj : jsParseFloat (.str "5abc") = some 5 := by
    simpa [jsParseFloat, jsToString, jsToStringDepth, jsSize] using hp
  constructor
  · simp [convertToType, convertToInt, hj]
  · simp [convertToType, convertToFloat, hj]

/-- C6 (confirmed). During field population, for a declared field
whose raw input value is absent or null (`hraw`), reached after the
fields before it populated successfully (`hpre`):
(A) a present (non-nullish) default is substituted — the value converted
and stored under the field's name is exactly `pm.default`;
(B) if the value is still nullish after substitution and the field is
required, population (and with it the whole class conversion) fails with
the missing-required-field error naming the record and field;
(C) if the value is still strictly `undefined` (not null) and the field
is optional, the field is skipped and the output record carries no such
key at all. -/
theorem field_population_null_and_default (fuel : ℕ) (reg : Registry) (cname : String)
    (val : JSValue) (pre post : List PropMetadata) (pm : PropMetadata)
    (m : List (String × PropMetadata)) (r : List (String × JSValue))
    (hraw : (jsGetProp val pm.name).isNullish = true)
    (hpre : populateProps fuel reg cname val pre [] = .ok r) :
    (pm.default.isNullish = false →
      populateProps fuel reg cname val (pre ++ pm :: post) []
        = match convertToType fuel reg pm.default pm.type with
          | .error e => .error e
          | .ok c => populateProps fuel reg cname val post (mapSet r pm.name c))
    ∧ (pm.default.isNullish = true → pm.isOptional = false →
        (populateProps fuel reg cname val (pre ++ pm :: post) []
            = .error (.missingRequiredField cname pm.name)
          ∧ (jsTypeof val = "object" → val ≠ .null →
              mapGet reg.propMeta cname = some m →
              m.map Prod.snd = pre ++ pm :: post →
              convertToClass fuel reg val cname
                = .error (.missingRequiredField cname pm.name))))
    ∧ (pm.default = .undefined → pm.isOptional = true →
        (populateProps fuel reg cname val (pre ++ pm :: post) []
            = populateProps fuel reg cname val post r
          ∧ ∀ rec, populateProps fuel reg cname val (pre ++ pm :: post) [] = .ok rec →
              (∀ pm₂ ∈ pre ++ post, pm₂.name ≠ pm.name) →
              mapGet rec pm.name = none)) := by
  have hstep : ∀ parsed : List (String × JSValue),
      populatePropAux (convertToType fuel reg) cname val pm parsed
        = if pm.default.isNullish then
            (if pm.isOptional = false then .error (.missingRequiredField cname pm.name)
             else if pm.default.isUndefined then .ok parsed
             else (convertToType fuel reg pm.default pm.type).map
               (fun c => mapSet parsed pm.name c))
          else (convertToType fuel reg pm.default pm.type).map
            (fun c => mapSet parsed pm.name c) := by
    intro parsed
    rw [populatePropAux]
    simp only [hraw, if_true]
  have hsplit : populateProps fuel reg cname val (pre ++ pm :: post) []
      = match populatePropAux (convertToType fuel reg) cname val pm r with
        | .error e => .error e
        | .ok p' => populatePropsAux (convertToType fuel reg) cname val post p' := by
    rw [populateProps, populatePropsAux_append]
    rw [populateProps] at hpre
    rw [hpre]
    rfl
  refine ⟨?_, ?_, ?_⟩
  · intro hdef
    rw [hsplit, hstep r, if_neg (by simp [hdef])]
    cases hc : convertToType fuel reg pm.default pm.type <;>
      simp [hc, Except.map, populateProps]
  · intro hdef hopt
    have hB : populateProps fuel reg cname val (pre ++ pm :: post) []
        = .error (.missingRequiredField cname pm.name) := by
      rw [hsplit, hstep r, if_pos hdef, if_pos hopt]
    refine ⟨hB, fun htype hnn hmeta hm => ?_⟩
    rw [convertToClass, convertToClassAux.eq_def, if_neg (by simp [htype])]
    rw [populateProps] at hB
    cases val with
    | null => exact absurd rfl hnn
    | undefined => simp [jsTypeof] at htype
    | bool b => simp [jsTypeof] at htype
    | num q => simp [jsTypeof] at htype
    | str s => simp [jsTypeof] at htype
    | arr elems => simp only [hmeta, hm, hB]
    | obj fs => simp only [hmeta, hm, hB]
    | date t => simp only [hmeta, hm, hB]
  · intro hdefu hopt
    have hC : populateProps fuel reg cname val (pre ++ pm :: post) []
        = populateProps fuel reg cname val post r := by
      rw [hsplit, hstep r, if_pos (by simp [hdefu, JSValue.isNullish]),
        if_neg (by simp [hopt]), if_pos (by simp [hdefu, JSValue.isUndefined])]
      rfl
    refine ⟨hC, fun rec hrec hnames => ?_⟩
    rw [hC, populateProps] at hrec
    have hrmid : mapGet r pm.name = none := by
      rw [populateProps] at hpre
      exact populatePropsAux_mapGet_none (convertToType fuel reg) cname val pre [] r
        pm.name rfl (fun q hq => hnames q (List.mem_append_left post hq)) hpre
    exact populatePropsAux_mapGet_none (convertToType fuel reg) cname val post r rec
      pm.name hrmid (fun q hq => hnames q (List.mem_append_right pre hq)) hrec

/-- Witness for C6 on the empty input object `{}`: a missing required
field aborts the class conversion with the missing-required-field error; a
missing optional field with a default yields the default; a missing
optional field with no default is omitted from the output entirely. -/
theorem field_population_null_and_default_witness :
    (populateProps 1 c6Registry "C" (.obj []) [c6RequiredId] []
        = .error (.missingRequiredField "C" "id")
      ∧ convertToClass 1 c6Registry (.obj []) "C"
        = .error (.missingRequiredField "C" "id"))
    ∧ populateProps 1 emptyRegistry "C" (.obj []) [c6OptionalDefault] []
        = .ok [("n", JSValue.num 0)]
    ∧ (populateProps 1 emptyRegistry "C" (.obj []) [c6OptionalNoDefault] [] = .ok []
      ∧ mapGet ([] : List (String × JSValue)) "zip" = none) := by
  refine ⟨⟨?_, ?_⟩, ?_, ?_, ?_⟩
  · exact ((field_population_null_and_default 1 c6Registry "C" (.obj []) [] []
      c6RequiredId [("id", c6RequiredId)] [] rfl rfl).2.1 rfl rfl).1
  · exact ((field_population_null_and_default 1 c6Registry "C" (.obj []) [] []
      c6RequiredId [("id", c6RequiredId)] [] rfl rfl).2.1 rfl rfl).2 rfl
      (fun h => JSValue.noConfusion h) rfl rfl
  · exact ((field_population_null_and_default 1 emptyRegistry "C" (.obj []) [] []
      c6OptionalDefault [] [] rfl rfl).1 rfl).trans rfl
  · exact (((field_population_null_and_default 1 emptyRegistry "C" (.obj []) [] []
      c6OptionalNoDefault [] [] rfl rfl).2.2 rfl rfl).1).trans rfl
  · exact ((field_population_null_and_default 1 emptyRegistry "C" (.obj []) [] []
      c6OptionalNoDefault [] [] rfl rfl).2.2 rfl rfl).2 [] rfl (by simp)

/-- C7 (confirmed). Validation runs only after every declared field
has populated (`hpop` feeds the fully-populated record `r` to every
validator call); the validator map is walked in declaration order and a
field's validators run in order; the first validator to return a
non-empty reason aborts the entire conversion with that validation error.
The fields after the failing one (`postV`) and the validators after the
failing one (`vs₂`) are universally quantified and absent from the
conclusion: they never run. A populated value that is strictly
`undefined` is skipped (`hpv` requires presence). -/
theorem validation_fail_fast (fuel : ℕ) (reg : Registry) (cname : String)
    (val : JSValue) (r : List (String × JSValue))
    (m : List (String × PropMetadata))
    (preV postV : List (String × List Validator)) (fname : String)
    (vs₁ vs₂ : List Validator) (v : Validator) (reason : String)
    (htype : jsTypeof val = "object") (hnn : val ≠ .null)
    (hmeta : mapGet reg.propMeta cname = some m)
    (hpop : populateProps fuel reg cname val (m.map Prod.snd) [] = .ok r)
    (hvm : mapGet reg.propValidators cname
      = some (preV ++ (fname, vs₁ ++ v :: vs₂) :: postV))
    (hpre : validateProps cname preV r = .ok ())
    (hpv : jsGetProp (.obj r) fname ≠ .undefined)
    (hvs₁ : runValidators vs₁ (jsGetProp (.obj r) fname) fname (.obj r) = none)
    (hv : v (jsGetProp (.obj r) fname) fname (.obj r) = some reason)
    (hne : reason ≠ "") :
    convertToClass fuel reg val cname = .error (.validationFail cname fname reason) := by
  have hUndefined : (jsGetProp (.obj r) fname).isUndefined = false := by
    cases hg : jsGetProp (.obj r) fname <;> simp_all [JSValue.isUndefined]
  rw [convertToClass, convertToClassAux.eq_def, if_neg (by simp [htype])]
  rw [populateProps] at hpop
  cases val with
  | null => exact absurd rfl hnn
  | undefined => simp [jsTypeof] at htype
  | bool b => simp [jsTypeof] at htype
  | num q => simp [jsTypeof] at htype
  | str s => simp [jsTypeof] at htype
  | arr elems =>
    simp only [hmeta, hpop, hvm, validateProps_append, hpre, validateProps, hUndefined,
      Bool.false_eq_true, if_false, runValidators_append, hvs₁, runValidators, hv]
    simp [hne]
  | obj fs =>
    simp only [hmeta, hpop, hvm, validateProps_append, hpre, validateProps, hUndefined,
      Bool.false_eq_true, if_false, runValidators_append, hvs₁, runValidators, hv]
    simp [hne]
  | date t =>
    simp only [hmeta, hpop, hvm, validateProps_append, hpre, validateProps, hUndefined,
      Bool.false_eq_true, if_false, runValidators_append, hvs₁, runValidators, hv]
    simp [hne]

/-- Witness for C7: the conversion aborts with `b`'s first non-empty
reason; `z`'s validator (and anything after the failing one) never
contributes. -/
theorem validation_fail_fast_witness :
    convertToClass 1 c7Registry c7Input "K" = .error (.validationFail "K" "b" "bad") :=
  validation_fail_fast 1 c7Registry "K" c7Input
    [("a", .num 1), ("b", .num 2), ("z", .num 3)]
    [("a", c7IntField "a"), ("b", c7IntField "b"), ("z", c7IntField "z")]
    [("a", [vPassAll])] [("z", [vNeverRun])] "b"
    [vEmptyReason] [] vBad "bad"
    rfl (fun h => JSValue.noConfusion h) rfl rfl rfl rfl
    (fun h => JSValue.noConfusion h) rfl rfl (by decide)

/-- C10 (confirmed). A `convertToType` call that returns normally
never returns `undefined`: the final check of `convertToType` turns an
`undefined` result into an error, so every `.ok` result is a defined
value (`null` remains permitted, e.g. for class targets). -/
theorem convertToType_never_undefined (fuel : ℕ) (reg : Registry) (val : JSValue)
    (t : TypeDesc) (r : JSValue) (h : convertToType fuel reg val t = .ok r) :
    r ≠ .undefined := by
  cases fuel with
  | zero => simp [convertToType] at h
  | succ n =>
    simp only [convertToType] at h
    exact finishConvert_ok_defined _ r h

/-- Witness for C10 at a concrete successful conversion. -/
theorem convertToType_never_undefined_witness :
    convertToType 1 emptyRegistry (.num 5) .int = .ok (.num 5)
    ∧ JSValue.num 5 ≠ JSValue.undefined :=
  ⟨rfl, convertToType_never_undefined 1 emptyRegistry (.num 5) .int (.num 5) rfl⟩
